import Mathlib

/-!
Verification development for the Model/Parse subsystem of the spatialdata
repository (raster / points / shapes / polygons / table models and the
spatial-neighbor graph builder).

The repository excerpt ships the test-suite (`tests/_core/test_models.py`,
`tests/dataloader/test_graph_loader.py`) and the public re-export module
`spatialdata/models/__init__.py`, but not the implementation modules
(`spatialdata/_core/models.py` and `spatialdata/dataloader`).  Every
operational definition below is therefore modelled from the specification
text (sections 3, 4 and 7), with the shipped tests fixing the behaviour
wherever they decide a question the prose leaves open.
-/

set_option linter.unusedVariables false

namespace SpatialData

/-- Modelled from the spec: the error taxonomy of section 7.  The
implementation module that declares these exception classes is not part of
the excerpt. -/
inductive ModelError where
  | axisMismatch
  | invalidAxis
  | dimensionality
  | missingColumn
  | invalidSize
  | unsupportedGeometry
  | lengthMismatch
  | configuration
  deriving DecidableEq, Repr

/-- Modelled from the spec: the coordinate transform attached to every parsed
element (section 4.2).  Only the identity default is exercised by the parse
entry points. -/
inductive Transform where
  | identity
  | affine (m : List (List ℚ))
  deriving DecidableEq, Repr

/-- Association-list lookup for the string-keyed metadata blocks
(`attrs` / `uns` dictionaries). -/
def lookupKey {β : Type} : List (String × β) → String → Option β
  | [], _ => none
  | (k, v) :: rest, a => if k = a then some v else lookupKey rest a

/-! ## RasterModel (section 4.3)

An n-dimensional array is embedded as a shape vector together with a total
valuation of multi-indices; axis labels are a name per dimension.  The four
accepted input representations (plain array, lazy-chunked array,
axis-labeled array, axis-labeled lazy array) are the four combinations of
the `lazy` flag and the presence of `labels`. -/

/-- An axis-labeled n-dimensional array: named dimensions, a shape, a dtype
tag and the element valuation. -/
structure LabeledArray (n : Nat) (α : Type) where
  dims : Fin n → String
  shape : Fin n → Nat
  dtype : String
  data : (Fin n → Nat) → α

/-- Modelled from the spec: the input accepted by `RasterSchema.parse`
(section 4.3).  `labels = none` is the plain / lazy-chunked array case, in
which axis order is assumed to already match the canonical order;
`labels = some d` is the axis-labeled (eager or lazy) case. -/
structure RasterInput (n : Nat) (α : Type) where
  lazy : Bool
  labels : Option (Fin n → String)
  shape : Fin n → Nat
  dtype : String
  data : (Fin n → Nat) → α

/-- A parsed raster element: canonical-order labeled array plus the attached
transform (section 4.2). -/
structure SpatialImage (n : Nat) (α : Type) where
  arr : LabeledArray n α
  transform : Transform

/-- A raster model variant: its canonical axis order (axis names are
pairwise distinct). -/
structure RasterSchema (n : Nat) where
  canon : Fin n → String
  hinj : Function.Injective canon

/-- The effective input axis order: the carried labels when present,
positional assignment of the canonical order otherwise (section 4.3). -/
def RasterInput.effDims {n : Nat} {α : Type} (inp : RasterInput n α)
    (M : RasterSchema n) : Fin n → String :=
  inp.labels.getD M.canon

/-- Axis-set validation of section 4.1: the input axis-name set must equal
the model's required set (no missing axis, no extra axis, no duplicate). -/
def axesValid {n : Nat} (canon d : Fin n → String) : Prop :=
  (∀ i, ∃ j, d j = canon i) ∧ (∀ j, ∃ i, canon i = d j) ∧ Function.Injective d

instance {n : Nat} (canon d : Fin n → String) : Decidable (axesValid canon d) := by
  unfold axesValid Function.Injective
  infer_instance

/-- The input axis position that carries canonical axis `i` (first match;
the default branch is never reached on validated input). -/
def permTo {n : Nat} (canon d : Fin n → String) (i : Fin n) : Fin n :=
  (((List.finRange n).find? fun j => decide (d j = canon i)).getD i)

/-- The canonical axis position of input axis `j` (first match; the default
branch is never reached on validated input). -/
def invTo {n : Nat} (canon d : Fin n → String) (j : Fin n) : Fin n :=
  (((List.finRange n).find? fun i => decide (canon i = d j)).getD j)

/-- Modelled from the spec: `RasterSchema.parse` of section 4.3
(the implementation in `spatialdata/_core/models.py` is not in the
excerpt).  It validates the axis set against the model's required set,
permutes the data to the model's canonical axis order via a transpose,
passes the dtype through unchanged and attaches the identity transform. -/
def RasterSchema.parse {n : Nat} {α : Type} (M : RasterSchema n)
    (inp : RasterInput n α) : Except ModelError (SpatialImage n α) :=
  let d := inp.effDims M
  if axesValid M.canon d then
    .ok { arr := { dims := M.canon
                   shape := fun i => inp.shape (permTo M.canon d i)
                   dtype := inp.dtype
                   data := fun idx => inp.data fun j => idx (invTo M.canon d j) }
          transform := .identity }
  else .error .axisMismatch

/-- Value lookup by axis name on a labeled array: the index along each
dimension is taken from an assignment of axis names to positions. -/
def LabeledArray.atNames {n : Nat} {α : Type} (t : LabeledArray n α)
    (f : String → Nat) : α :=
  t.data fun i => f (t.dims i)

/-- Value lookup by axis name on a raster input, relative to the model used
to fill in missing labels. -/
def RasterInput.atNames {n : Nat} {α : Type} (inp : RasterInput n α)
    (M : RasterSchema n) (f : String → Nat) : α :=
  inp.data fun i => f (inp.effDims M i)

/-- 2D image model: canonical order (c, y, x) (section 3). -/
def Image2DModel : RasterSchema 3 := ⟨!["c", "y", "x"], by decide⟩

/-- 3D image model: canonical order (c, z, y, x) (section 3). -/
def Image3DModel : RasterSchema 4 := ⟨!["c", "z", "y", "x"], by decide⟩

/-- 2D labels model: canonical order (y, x); no channel axis (section 4.3). -/
def Labels2DModel : RasterSchema 2 := ⟨!["y", "x"], by decide⟩

/-- 3D labels model: canonical order (z, y, x); no channel axis
(section 4.3). -/
def Labels3DModel : RasterSchema 3 := ⟨!["z", "y", "x"], by decide⟩

/-! ## PolygonsModel (section 4.5, geometry path)

Geometries are embedded over an arbitrary coordinate type; a polygon is its
list of rings (exterior first), a multipolygon a list of polygons.  The
ragged-array decomposition follows the geometry engine's interface named in
section 6: a flat coordinate buffer plus cumulative offset arrays, one
nesting level per geometry level. -/

/-- A geometry object held by a shapes table.  `point` stands for the
geometry types outside the supported {polygon, multipolygon} set. -/
inductive Geom (α : Type) where
  | point (p : α × α)
  | polygon (rings : List (List (α × α)))
  | multipolygon (polys : List (List (List (α × α))))
  deriving DecidableEq

/-- Geometry-type tag of a ragged-array triple. -/
inductive GeomType where
  | point
  | linestring
  | polygon
  | multipolygon
  deriving DecidableEq

def Geom.isPolygon {α : Type} : Geom α → Bool
  | .polygon _ => true
  | _ => false

def Geom.isMultipolygon {α : Type} : Geom α → Bool
  | .multipolygon _ => true
  | _ => false

def Geom.asPolygon {α : Type} : Geom α → List (List (α × α))
  | .polygon r => r
  | _ => []

def Geom.asMulti {α : Type} : Geom α → List (List (List (α × α)))
  | .multipolygon m => m
  | _ => []

/-- Split a flat list into consecutive chunks of the given lengths. -/
def chunksBy {β : Type} : List Nat → List β → List (List β)
  | [], _ => []
  | k :: ks, xs => xs.take k :: chunksBy ks (xs.drop k)

/-- Cumulative offset array of a length list (leading 0 included), as in the
ragged-array encoding. -/
def offsetsOf (ls : List Nat) : List Nat := ls.scanl (· + ·) 0

/-- Consecutive differences of an offset array: recovers the length list. -/
def lensOf : List Nat → List Nat
  | a :: b :: rest => (b - a) :: lensOf (b :: rest)
  | _ => []

/-- Split a flat list according to a cumulative offset array. -/
def chunksByOffsets {β : Type} (offs : List Nat) (xs : List β) : List (List β) :=
  chunksBy (lensOf offs) xs

/-- Modelled from the spec: the geometry engine's ragged-array decomposition
(`to_ragged_array`, section 6 collaborator interface; the engine itself is
external).  A homogeneous collection decomposes into a single geometry-type
tag, the flat coordinate buffer, and one cumulative offset array per
nesting level; the single tag presupposes a homogeneous collection. -/
def toRaggedArray {α : Type} (gs : List (Geom α)) :
    Option (GeomType × List (α × α) × List (List Nat)) :=
  if gs.all Geom.isPolygon then
    let polys := gs.map Geom.asPolygon
    let rings := polys.flatten
    some (.polygon, rings.flatten,
      [offsetsOf (rings.map List.length), offsetsOf (polys.map List.length)])
  else if gs.all Geom.isMultipolygon then
    let ms := gs.map Geom.asMulti
    let polys := ms.flatten
    let rings := polys.flatten
    some (.multipolygon, rings.flatten,
      [offsetsOf (rings.map List.length), offsetsOf (polys.map List.length),
        offsetsOf (ms.map List.length)])
  else none

/-- The parsed polygons element: the geometry column plus the attached
transform (test assertions `GEOMETRY_KEY in poly` and
`TRANSFORM_KEY in poly.attrs`). -/
structure PolyFrame (α : Type) where
  geometry : List (Geom α)
  transform : Transform
  deriving DecidableEq

/-- The in-memory inputs of `PolygonsModel.parse`: a ragged-array triple or
an already-parsed table (the file-path input of section 4.5 is I/O and has
no in-memory content beyond the geometries it denotes). -/
inductive PolyInput (α : Type) where
  | ragged (data : List (α × α)) (offsets : List (List Nat)) (gtype : GeomType)
  | table (t : PolyFrame α)

namespace PolygonsModel

/-- Modelled from the spec: the ragged-triple branch of
`PolygonsModel.parse` (section 4.5; `spatialdata/_core/models.py` is not in
the excerpt).  Geometry types outside {polygon, multipolygon} are rejected
with `UnsupportedGeometryError`; an offset array count not matching the
geometry type is a configuration error. -/
def parseRagged {α : Type} (data : List (α × α)) (offsets : List (List Nat))
    (gt : GeomType) : Except ModelError (PolyFrame α) :=
  match gt, offsets with
  | .polygon, [ringOffs, polyOffs] =>
      .ok ⟨(chunksByOffsets polyOffs (chunksByOffsets ringOffs data)).map .polygon,
        .identity⟩
  | .multipolygon, [ringOffs, polyOffs, partOffs] =>
      .ok ⟨(chunksByOffsets partOffs
          (chunksByOffsets polyOffs (chunksByOffsets ringOffs data))).map .multipolygon,
        .identity⟩
  | .point, _ => .error .unsupportedGeometry
  | .linestring, _ => .error .unsupportedGeometry
  | _, _ => .error .configuration

/-- Modelled from the spec: `PolygonsModel.parse` (section 4.5).  An
already-parsed table is passed through after re-validating that every
geometry is a polygon or multipolygon. -/
def parse {α : Type} : PolyInput α → Except ModelError (PolyFrame α)
  | .ragged data offsets gt => parseRagged data offsets gt
  | .table t =>
      if t.geometry.all fun g => g.isPolygon || g.isMultipolygon then .ok t
      else .error .unsupportedGeometry

end PolygonsModel

/-! ## ShapesModel (section 4.5, parametric path)

Sizes are float values; a float is either NaN or a numeric value, which is
all the size validation inspects (sign and NaN-ness). -/

/-- A floating-point size value: NaN or a numeric value. -/
inductive FVal where
  | nan
  | num (q : ℚ)
  deriving DecidableEq

/-- A size value is invalid when it is negative or NaN (section 4.5). -/
def FVal.invalid : FVal → Bool
  | .nan => true
  | .num q => decide (q < 0)

/-- The enumerated parametric shape types (section 4.5). -/
inductive ShapeType where
  | circle
  | square
  deriving DecidableEq

/-- The `shape_size` argument: a scalar broadcast to all rows, or a per-row
array. -/
inductive SizeArg where
  | scalar (v : FVal)
  | array (vs : List FVal)

/-- A value of the shapes table's attribute block: the notable case is the
shape-type entry, which may hold the null value. -/
inductive ShAttr where
  | null
  | ofType (t : ShapeType)
  deriving DecidableEq

/-- Column dtype tags; size columns are always floating point. -/
inductive Dtype where
  | float64
  | int64
  | object
  deriving DecidableEq

/-- The parsed shapes element: coordinates block, per-row size column with
its dtype, table-level attribute block, attached transform. -/
structure ShapesTable where
  coords : List (ℚ × ℚ)
  sizeCol : List FVal
  sizeDtype : Dtype
  attrs : List (String × ShAttr)
  transform : Transform
  deriving DecidableEq

namespace ShapesModel

/-- The attribute value recording the passed `shape_type`: the null value
when the argument was omitted. -/
def typeAttr : Option ShapeType → ShAttr
  | none => .null
  | some t => .ofType t

/-- Modelled from the spec: `ShapesModel.parse`, parametric path
(section 4.5; `spatialdata/_core/models.py` is not in the excerpt).  A
scalar size is broadcast to all rows, an array size is taken element-wise
(its length must be the row count); sizes are coerced to floating point and
a negative or NaN size raises `InvalidSizeError`.  The default size column
used when `shape_size` is omitted is not pinned down by the spec; any
per-row float column satisfies it.  The shape type is recorded once in the
table-level attribute block (test `test_shapes_model`, which asserts the
entry also when `shape_type` is `None`). -/
def parse (coords : List (ℚ × ℚ)) (shape_type : Option ShapeType)
    (shape_size : Option SizeArg) : Except ModelError ShapesTable :=
  let n := coords.length
  let mkT : List FVal → ShapesTable := fun sizes =>
    { coords := coords
      sizeCol := sizes
      sizeDtype := .float64
      attrs := [("type", typeAttr shape_type)]
      transform := .identity }
  match shape_size with
  | none => .ok (mkT (List.replicate n (.num 1)))
  | some (.scalar v) =>
      if v.invalid then .error .invalidSize else .ok (mkT (List.replicate n v))
  | some (.array vs) =>
      if vs.length ≠ n then .error .lengthMismatch
      else if vs.any FVal.invalid then .error .invalidSize
      else .ok (mkT vs)

end ShapesModel

/-! ## PointsModel (section 4.4)

A dataframe is embedded column-major: a list of named value columns.  The
`data` argument variants are a coordinate array (optionally accompanied by
an annotation dataframe) and an eager or lazy dataframe with a coordinate
column mapping. -/

/-- A dataframe: named value columns. -/
abbrev DFrame := List (String × List ℚ)

/-- The column names of a dataframe. -/
def colNames (d : DFrame) : List String := d.map Prod.fst

/-- Modelled from the spec: the `data` argument of `PointsModel.parse`
(section 4.4): a coordinate array with positional columns x, y[, z] plus an
optional annotation dataframe, or an (eager or lazy) dataframe with a
mapping from canonical axis names to column names. -/
inductive PointsInput where
  | arr (coords : List (List ℚ)) ( annotation : Option DFrame)
  | df (lazy : Bool) (d : DFrame) (coordinates : List (String × String))

/-- The parsed points element: resolved spatial axes, retained columns, the
`spatialdata_attrs` metadata block and the attached transform. -/
structure PointsFrame where
  axes : List String
  cols : DFrame
  sdAttrs : List (String × String)
  transform : Transform
  deriving DecidableEq

namespace PointsModel

/-- The columns a requested feature/instance key is resolved against:
the annotation dataframe's columns on the array path (none when no
annotation was supplied), the dataframe's own columns otherwise. -/
def srcCols : PointsInput → Option (List String)
  | .arr _ ann => ann.map colNames
  | .df _ d _ => some (colNames d)

/-- Modelled from the spec: resolution of a requested `feature_key` /
`instance_key` (section 4.4).  A key is registered only if the named column
exists in the source of extra columns; a request with no column source at
all is silently treated as not annotated; a named column missing from an
existing source is a `MissingColumnError`. -/
def resolveKey (cols : Option (List String)) : Option String → Except ModelError (Option String)
  | none => .ok none
  | some name =>
      match cols with
      | none => .ok none
      | some cs => if name ∈ cs then .ok (some name) else .error .missingColumn

/-- Modelled from the spec: resolution of the spatial coordinate columns
(section 4.4).  An array must be rectangular of width 2 or 3; a coordinate
mapping must cover exactly x, y or x, y, z and name existing columns. -/
def checkCoords : PointsInput → Except ModelError (List String)
  | .arr coords _ =>
      let w := ((coords.head?).map List.length).getD 2
      if (w = 2 ∨ w = 3) ∧ ∀ r ∈ coords, r.length = w then
        .ok (if w = 2 then ["x", "y"] else ["x", "y", "z"])
      else .error .dimensionality
  | .df _ d coordinates =>
      let axs := coordinates.map Prod.fst
      if axs = ["x", "y"] ∨ axs = ["x", "y", "z"] then
        if ∀ p ∈ coordinates, p.2 ∈ colNames d then .ok axs
        else .error .missingColumn
      else .error .dimensionality

/-- The non-coordinate columns retained in the output: the annotation
dataframe's columns on the array path, the dataframe's columns otherwise. -/
def keptCols : PointsInput → DFrame
  | .arr _ (some ann) => ann
  | .arr _ none => []
  | .df _ d _ => d

/-- The `spatialdata_attrs` entry contributed by one resolved key: one
entry when the key was registered, none otherwise. -/
def keyEntry (name : String) : Option String → List (String × String)
  | none => []
  | some nm => [(name, nm)]

/-- Modelled from the spec: `PointsModel.parse` (section 4.4;
`spatialdata/_core/models.py` is not in the excerpt).  Coordinates are
resolved, the two optional keys are resolved against the column source, the
`spatialdata_attrs` block receives an entry per registered key (and no
entry for an omitted key), and the identity transform is attached. -/
def parse (inp : PointsInput) (instance_key feature_key : Option String) :
    Except ModelError PointsFrame :=
  match checkCoords inp with
  | .error e => .error e
  | .ok axs =>
      match resolveKey (srcCols inp) instance_key with
      | .error e => .error e
      | .ok rik =>
          match resolveKey (srcCols inp) feature_key with
          | .error e => .error e
          | .ok rfk =>
              .ok { axes := axs
                    cols := keptCols inp
                    sdAttrs := keyEntry "feature_key" rfk ++ keyEntry "instance_key" rik
                    transform := .identity }

end PointsModel

/-! ## TableModel (section 4.6)

The annotation matrix is embedded as its row count plus its named obs
columns; values are drawn from an arbitrary linearly ordered label type.
The `uns`-level attribute block of the parsed table is an association
list so presence of an entry and its value are separate facts. -/

/-- An obs column: plain values, or a categorical column carrying its
category list. -/
inductive Column (σ : Type) where
  | plain (vals : List σ)
  | cat (cats : List σ) (vals : List σ)
  deriving DecidableEq

/-- A value of the table's attribute block. -/
inductive AttrVal (σ : Type) where
  | null
  | str (s : String)
  | labels (ls : List σ)
  deriving DecidableEq

/-- An annotation matrix: row count and named obs columns. -/
structure AnnData (σ : Type) where
  n : Nat
  obsCols : List (String × Column σ)
  deriving DecidableEq

/-- A parsed annotation table: obs columns plus the model's attribute
block (the content of `uns[ATTRS_KEY]`). -/
structure ParsedTable (σ : Type) where
  n : Nat
  obsCols : List (String × Column σ)
  attrs : List (String × AttrVal σ)
  deriving DecidableEq

/-- The `region` argument: a single region name applying to every row, or a
per-row array of region labels. -/
inductive RegionArg (σ : Type) where
  | single (s : String)
  | arr (ls : List σ)

namespace TableModel

/-- The category list of a categorical region column: the sorted distinct
input labels (section 4.6). -/
def sortedCats {σ : Type} [LinearOrder σ] (ls : List σ) : List σ :=
  List.insertionSort (· ≤ ·) ls.dedup

/-- Set a named column of an obs block, replacing an existing column of
that name and appending otherwise. -/
def setCol {σ : Type} (cols : List (String × Column σ)) (k : String)
    (c : Column σ) : List (String × Column σ) :=
  if k ∈ cols.map Prod.fst then
    cols.map fun p => if p.1 = k then (k, c) else p
  else cols ++ [(k, c)]

/-- Modelled from the spec: `TableModel.parse` (section 4.6;
`spatialdata/_core/models.py` is not in the excerpt).  The instance key
must name an existing obs column; a region array requires a `region_key`
name and its own length to match the row count, and makes the named obs
column categorical with the sorted distinct labels as categories; a single
region string adds no per-row column.  The attribute block always records
the three entries region / region_key / instance_key, with the null value
for an absent region key (test `test_table_model`, which asserts
`REGION_KEY_KEY in table.uns[ATTRS_KEY]` in the string-region branch as
well, and the section 6 interface table, which lists all three keys). -/
def parse {σ : Type} [LinearOrder σ] (adata : AnnData σ) (region : RegionArg σ)
    (region_key : Option String) (instance_key : String) :
    Except ModelError (ParsedTable σ) :=
  if instance_key ∈ adata.obsCols.map Prod.fst then
    match region with
    | .single s =>
        .ok { n := adata.n
              obsCols := adata.obsCols
              attrs := [("region", .str s),
                ("region_key", match region_key with
                  | none => .null
                  | some rk => .str rk),
                ("instance_key", .str instance_key)] }
    | .arr ls =>
        match region_key with
        | none => .error .configuration
        | some rk =>
            if ls.length = adata.n then
              .ok { n := adata.n
                    obsCols := setCol adata.obsCols rk (.cat (sortedCats ls) ls)
                    attrs := [("region", .labels ls),
                      ("region_key", .str rk),
                      ("instance_key", .str instance_key)] }
            else .error .lengthMismatch
  else .error .missingColumn

end TableModel

/-! ## GraphBuilder (section 4.7)

The geometry collection is consumed through its anchor coordinates; the
builder works on the list of anchors.  Distances are compared through their
squares, which is order-equivalent to comparing Euclidean distances. -/

/-- The keyword parameters of `build_graph`; each method reads its own
subset. -/
structure GraphParams where
  k : Option Nat
  max_distance : Option ℚ
  percentile : Option ℚ

/-- Squared Euclidean distance between two anchor coordinates. -/
def sqDist (p q : ℚ × ℚ) : ℚ := (p.1 - q.1) ^ 2 + (p.2 - q.2) ^ 2

/-- The knn sort key of candidate neighbor `j` for instance `i`: squared
distance first, candidate index second (stable ascending tie-break,
section 4.7). -/
def knnKey (pts : List (ℚ × ℚ)) (i j : Nat) : ℚ × Nat :=
  (sqDist (pts.getD i (0, 0)) (pts.getD j (0, 0)), j)

/-- Lexicographic order on knn sort keys. -/
def keyLE (a b : ℚ × Nat) : Prop := a.1 < b.1 ∨ (a.1 = b.1 ∧ a.2 ≤ b.2)

instance : DecidableRel keyLE := by
  unfold keyLE
  infer_instance

/-- Modelled from the spec: the directed neighbor relation of the `knn`
method before symmetrization (section 4.7): the k nearest other instances
by Euclidean distance on anchor coordinates, ties broken by stable
ascending instance-index order. -/
def knnNeighbors (pts : List (ℚ × ℚ)) (k : Nat) (i : Nat) : List Nat :=
  (List.insertionSort (fun a b => keyLE (knnKey pts i a) (knnKey pts i b))
    ((List.range pts.length).erase i)).take k

/-- The directed knn edge list over all instances. -/
def knnEdges (pts : List (ℚ × ℚ)) (k : Nat) : List (Nat × Nat) :=
  (List.range pts.length).flatMap fun i => (knnNeighbors pts k i).map fun j => (i, j)

/-- Make a directed edge list undirected (section 4.7): add every reversed
edge and drop duplicates. -/
def symmetrize (es : List (Nat × Nat)) : List (Nat × Nat) :=
  (es ++ es.map fun e => (e.2, e.1)).dedup

/-- All edges between distinct instances within squared distance `d2`. -/
def withinEdges (pts : List (ℚ × ℚ)) (d2 : ℚ) : List (Nat × Nat) :=
  (List.range pts.length).flatMap fun i =>
    ((List.range pts.length).filter fun j =>
      decide (j ≠ i) && decide (sqDist (pts.getD i (0, 0)) (pts.getD j (0, 0)) ≤ d2)).map
      fun j => (i, j)

/-- All pairwise squared distances between distinct instances. -/
def pairwiseSqDists (pts : List (ℚ × ℚ)) : List ℚ :=
  (List.range pts.length).flatMap fun i =>
    ((List.range pts.length).filter fun j => decide (i < j)).map fun j =>
      sqDist (pts.getD i (0, 0)) (pts.getD j (0, 0))

/-- Modelled from the spec: the threshold the `expansion` method derives
from a `percentile` argument.  Section 9 records that the statistic is
ambiguous in the source; following its instruction an implementer picks one
and documents it: here the percentile of the all-pairwise-distance
distribution, by rank on the sorted list. -/
def percentileThreshold (p : ℚ) (pts : List (ℚ × ℚ)) : ℚ :=
  let sorted := List.insertionSort (· ≤ ·) (pairwiseSqDists pts)
  sorted.getD (⌊p * ((sorted.length : ℚ) - 1) / 100⌋).toNat 0

/-- Modelled from the spec: `build_graph` (section 4.7; the
`spatialdata/dataloader` module is not in the excerpt).  The method string
is validated against the enumerated set {knn, radius, expansion} before any
computation; each method asserts its own parameter subset; the returned
edge list excludes self-loops and is symmetrized where the directed
relation is asymmetric (knn). -/
def build_graph (gdf : List (ℚ × ℚ)) (method : String) (params : GraphParams) :
    Except ModelError (List (Nat × Nat)) :=
  if method = "knn" then
    match params.k with
    | some k => if 1 ≤ k then .ok (symmetrize (knnEdges gdf k)) else .error .configuration
    | none => .error .configuration
  else if method = "radius" then
    match params.max_distance with
    | some d => if 0 < d then .ok (withinEdges gdf (d ^ 2)) else .error .configuration
    | none => .error .configuration
  else if method = "expansion" then
    match params.max_distance, params.percentile with
    | some d, none => if 0 < d then .ok (withinEdges gdf (d ^ 2)) else .error .configuration
    | none, some p =>
        if 0 ≤ p ∧ p ≤ 100 then .ok (withinEdges gdf (percentileThreshold p gdf))
        else .error .configuration
    | _, _ => .error .configuration
  else .error .configuration

/-! ## Concrete elements used by the witness theorems -/

/-- A permuted, axis-labeled, lazy 2D labels input. -/
def rasterInW : RasterInput 2 ℚ :=
  { lazy := true
    labels := some !["x", "y"]
    shape := ![10, 7]
    dtype := "float64"
    data := fun idx => (idx 0 : ℚ) + 2 * idx 1 }

/-- A parsed two-row polygon collection. -/
def polyW : PolyFrame ℤ :=
  ⟨[.polygon [[(0, 0), (2, 0), (0, 2)]],
    .polygon [[(1, 1), (3, 1), (1, 3)], [(1, 1), (2, 1), (1, 2)]]], .identity⟩

/-- The parse result of a one-polygon ragged triple. -/
def polyT : PolyFrame ℤ := ⟨[.polygon [[(0, 0), (4, 0), (0, 4)]]], .identity⟩

/-- A two-row coordinate array for the shapes model. -/
def shapesCoordsW : List (ℚ × ℚ) := [(0, 0), (1, 2)]

/-- The shapes table produced from `shapesCoordsW` with both optional
arguments omitted. -/
def shapesT0 : ShapesTable :=
  { coords := shapesCoordsW
    sizeCol := [.num 1, .num 1]
    sizeDtype := .float64
    attrs := [("type", .null)]
    transform := .identity }

/-- A four-column source dataframe for the points model. -/
def dfW : DFrame :=
  [("A", [1, 2]), ("B", [3, 4]), ("cell_id", [0, 1]), ("target", [1, 1])]

/-- An eager-dataframe points input over `dfW`. -/
def pointsInW : PointsInput := .df false dfW [("x", "A"), ("y", "B")]

/-- A three-row annotation matrix with one obs column. -/
def adW : AnnData ℕ := ⟨3, [("A", .plain [5, 6, 7])]⟩

/-- A two-row annotation matrix with one obs column. -/
def adC5 : AnnData ℕ := ⟨2, [("A", .plain [1, 2])]⟩

/-- The table produced from `adC5` with the single-string region. -/
def tblC5 : ParsedTable ℕ :=
  ⟨2, [("A", .plain [1, 2])],
    [("region", .str "sample"), ("region_key", .null), ("instance_key", .str "A")]⟩

/-- Three distinct anchor points for the graph builder. -/
def ptsW : List (ℚ × ℚ) := [(0, 0), (1, 0), (3, 0)]

/-! ## Raster lemmas and claim C1 -/

theorem d_permTo {n : Nat} {canon d : Fin n → String} {i : Fin n}
    (h : ∃ j, d j = canon i) : d (permTo canon d i) = canon i := by
  unfold permTo
  cases hf : (List.finRange n).find? fun j => decide (d j = canon i) with
  | none =>
      obtain ⟨j, hj⟩ := h
      have hall := List.find?_eq_none.mp hf j (List.mem_finRange j)
      simp only [decide_eq_true_eq] at hall
      exact absurd hj hall
  | some j =>
      have hp := List.find?_some hf
      simp only [decide_eq_true_eq] at hp
      simpa using hp

theorem canon_invTo {n : Nat} {canon d : Fin n → String} {j : Fin n}
    (h : ∃ i, canon i = d j) : canon (invTo canon d j) = d j := by
  unfold invTo
  cases hf : (List.finRange n).find? fun i => decide (canon i = d j) with
  | none =>
      obtain ⟨i, hi⟩ := h
      have hall := List.find?_eq_none.mp hf i (List.mem_finRange i)
      simp only [decide_eq_true_eq] at hall
      exact absurd hi hall
  | some i =>
      have hp := List.find?_some hf
      simp only [decide_eq_true_eq] at hp
      simpa using hp

theorem permTo_eq {n : Nat} {canon d : Fin n → String} {i x : Fin n}
    (hinj : Function.Injective d) (hx : d x = canon i) :
    permTo canon d i = x := by
  have h1 : d (permTo canon d i) = canon i := d_permTo ⟨x, hx⟩
  exact hinj (h1.trans hx.symm)

/-- C1: for every supported raster input representation (plain array,
lazy-chunked array, axis-labeled array, axis-labeled lazy array — the four
combinations of the `lazy` flag and the presence of `labels`) and for both
canonical and permuted input axis orders (the effective dims are any
permutation `e` of the canonical order), `RasterSchema.parse` succeeds and
returns an element whose dtype equals the input dtype, whose values are
unchanged under lookup by axis name, whose shape equals the input shape
exactly when the input order is canonical, and whose shape equals the input
shape as a set in general. -/
theorem raster_parse_spec {n : Nat} {α : Type} (M : RasterSchema n)
    (inp : RasterInput n α) (e : Equiv (Fin n) (Fin n))
    (hd : ∀ i, inp.effDims M i = M.canon (e i)) :
    ∃ out : SpatialImage n α, M.parse inp = .ok out ∧
      out.arr.dtype = inp.dtype ∧
      (∀ f : String → Nat, out.arr.atNames f = inp.atNames M f) ∧
      ((∀ i, inp.effDims M i = M.canon i) → out.arr.shape = inp.shape) ∧
      (∀ s : Nat, (∃ i, out.arr.shape i = s) ↔ (∃ j, inp.shape j = s)) := by
  have hvalid : axesValid M.canon (inp.effDims M) := by
    refine ⟨fun i => ⟨e.symm i, ?_⟩, fun j => ⟨e j, ?_⟩, ?_⟩
    · rw [hd (e.symm i), Equiv.apply_symm_apply]
    · rw [hd j]
    · intro a b hab
      rw [hd a, hd b] at hab
      exact e.injective (M.hinj hab)
  have hex1 : ∀ i, ∃ j, inp.effDims M j = M.canon i := hvalid.1
  have hex2 : ∀ j, ∃ i, M.canon i = inp.effDims M j := hvalid.2.1
  have hinjd : Function.Injective (inp.effDims M) := hvalid.2.2
  refine ⟨{ arr := { dims := M.canon
                     shape := fun i => inp.shape (permTo M.canon (inp.effDims M) i)
                     dtype := inp.dtype
                     data := fun idx => inp.data fun j => idx (invTo M.canon (inp.effDims M) j) }
            transform := .identity }, ?_, rfl, ?_, ?_, ?_⟩
  · simp only [RasterSchema.parse]
    rw [if_pos hvalid]
  · intro f
    unfold LabeledArray.atNames RasterInput.atNames
    show inp.data _ = inp.data _
    congr 1
    funext j
    exact congrArg f (canon_invTo (hex2 j))
  · intro hcanon
    funext i
    show inp.shape (permTo M.canon (inp.effDims M) i) = inp.shape i
    congr 1
    exact permTo_eq hinjd (hcanon i)
  · intro s
    constructor
    · rintro ⟨i, hi⟩
      exact ⟨permTo M.canon (inp.effDims M) i, hi⟩
    · rintro ⟨j, hj⟩
      refine ⟨e j, ?_⟩
      show inp.shape (permTo M.canon (inp.effDims M) (e j)) = s
      have hpj : permTo M.canon (inp.effDims M) (e j) = j :=
        permTo_eq hinjd (hd j)
      rw [hpj]
      exact hj

/-- Witness for C1: a permuted, axis-labeled, lazy 2D labels input. -/
theorem raster_parse_spec_witness :
    (∀ i, rasterInW.effDims Labels2DModel i =
        Labels2DModel.canon ((Equiv.swap 0 1 : Equiv (Fin 2) (Fin 2)) i)) ∧
    (∃ out : SpatialImage 2 ℚ, Labels2DModel.parse rasterInW = .ok out ∧
      out.arr.dtype = rasterInW.dtype ∧
      (∀ f : String → Nat, out.arr.atNames f = rasterInW.atNames Labels2DModel f) ∧
      ((∀ i, rasterInW.effDims Labels2DModel i = Labels2DModel.canon i) →
        out.arr.shape = rasterInW.shape) ∧
      (∀ s : Nat, (∃ i, out.arr.shape i = s) ↔ (∃ j, rasterInW.shape j = s))) :=
  ⟨by decide, raster_parse_spec Labels2DModel rasterInW (Equiv.swap 0 1) (by decide)⟩

/-! ## Polygon lemmas and claims C2, C3 -/

theorem chunksBy_flatten {β : Type} :
    ∀ xss : List (List β), chunksBy (xss.map List.length) xss.flatten = xss := by
  intro xss
  induction xss with
  | nil => rfl
  | cons xs xss ih =>
      simp only [List.map_cons, List.flatten_cons, chunksBy]
      rw [List.take_left, List.drop_left, ih]

theorem lensOf_scanl : ∀ (ls : List Nat) (a : Nat),
    lensOf (List.scanl (· + ·) a ls) = ls := by
  intro ls
  induction ls with
  | nil => intro a; rfl
  | cons x xs ih =>
      intro a
      cases xs with
      | nil =>
          show lensOf [a, a + x] = [x]
          show (a + x - a) :: lensOf [a + x] = [x]
          have h1 : a + x - a = x := by omega
          rw [h1]
          rfl
      | cons y ys =>
          show lensOf (a :: List.scanl (· + ·) (a + x) (y :: ys)) = x :: y :: ys
          rw [List.scanl]
          show (a + x - a) :: lensOf ((a + x) :: List.scanl (· + ·) (a + x + y) ys) =
            x :: y :: ys
          have h1 : a + x - a = x := by omega
          rw [h1]
          have h2 : (a + x) :: List.scanl (· + ·) (a + x + y) ys =
              List.scanl (· + ·) (a + x) (y :: ys) := by
            rw [List.scanl]
          rw [h2, ih]

theorem chunksByOffsets_offsetsOf {β : Type} (xss : List (List β)) :
    chunksByOffsets (offsetsOf (xss.map List.length)) xss.flatten = xss := by
  unfold chunksByOffsets offsetsOf
  rw [lensOf_scanl]
  exact chunksBy_flatten xss

theorem map_polygon_asPolygon {α : Type} :
    ∀ gs : List (Geom α), gs.all Geom.isPolygon = true →
      (gs.map Geom.asPolygon).map Geom.polygon = gs := by
  intro gs h
  induction gs with
  | nil => rfl
  | cons g gs ih =>
      simp only [List.all_cons, Bool.and_eq_true] at h
      cases g with
      | polygon r =>
          simp only [List.map_cons, Geom.asPolygon]
          rw [ih h.2]
      | point p => simp [Geom.isPolygon] at h
      | multipolygon m => simp [Geom.isPolygon] at h

theorem map_multipolygon_asMulti {α : Type} :
    ∀ gs : List (Geom α), gs.all Geom.isMultipolygon = true →
      (gs.map Geom.asMulti).map Geom.multipolygon = gs := by
  intro gs h
  induction gs with
  | nil => rfl
  | cons g gs ih =>
      simp only [List.all_cons, Bool.and_eq_true] at h
      cases g with
      | multipolygon m =>
          simp only [List.map_cons, Geom.asMulti]
          rw [ih h.2]
      | point p => simp [Geom.isMultipolygon] at h
      | polygon r => simp [Geom.isMultipolygon] at h

/-- C2: for every parsed polygon/multipolygon collection (a homogeneous
collection, as presupposed by the single geometry-type tag of the
decomposition), decomposing it into the (geometry type, coordinate buffer,
ring offsets) triple and calling `PolygonsModel.parse` on that triple
reconstructs a collection equal to the original, row for row. -/
theorem polygons_roundtrip {α : Type} (inp : PolyInput α) (t : PolyFrame α)
    (hp : PolygonsModel.parse inp = .ok t)
    (hhom : t.geometry.all Geom.isPolygon = true ∨
      t.geometry.all Geom.isMultipolygon = true) :
    ∃ trip : GeomType × List (α × α) × List (List Nat),
      toRaggedArray t.geometry = some trip ∧
      ∃ t' : PolyFrame α,
        PolygonsModel.parse (.ragged trip.2.1 trip.2.2 trip.1) = .ok t' ∧
        t'.geometry = t.geometry := by
  by_cases h1 : t.geometry.all Geom.isPolygon = true
  · refine ⟨(.polygon, ((t.geometry.map Geom.asPolygon).flatten).flatten,
      [offsetsOf ((((t.geometry.map Geom.asPolygon).flatten).map List.length)),
        offsetsOf ((t.geometry.map Geom.asPolygon).map List.length)]), ?_, ?_⟩
    · simp only [toRaggedArray]
      rw [if_pos h1]
    · refine ⟨⟨t.geometry, .identity⟩, ?_, rfl⟩
      simp only [PolygonsModel.parse, PolygonsModel.parseRagged]
      rw [chunksByOffsets_offsetsOf ((t.geometry.map Geom.asPolygon).flatten),
        chunksByOffsets_offsetsOf (t.geometry.map Geom.asPolygon),
        map_polygon_asPolygon _ h1]
  · have h2 : t.geometry.all Geom.isMultipolygon = true := hhom.resolve_left h1
    refine ⟨(.multipolygon,
      (((t.geometry.map Geom.asMulti).flatten).flatten).flatten,
      [offsetsOf (((((t.geometry.map Geom.asMulti).flatten).flatten).map List.length)),
        offsetsOf ((((t.geometry.map Geom.asMulti).flatten).map List.length)),
        offsetsOf ((t.geometry.map Geom.asMulti).map List.length)]), ?_, ?_⟩
    · simp only [toRaggedArray]
      rw [if_neg h1, if_pos h2]
    · refine ⟨⟨t.geometry, .identity⟩, ?_, rfl⟩
      simp only [PolygonsModel.parse, PolygonsModel.parseRagged]
      rw [chunksByOffsets_offsetsOf (((t.geometry.map Geom.asMulti).flatten).flatten),
        chunksByOffsets_offsetsOf ((t.geometry.map Geom.asMulti).flatten),
        chunksByOffsets_offsetsOf (t.geometry.map Geom.asMulti),
        map_multipolygon_asMulti _ h2]

/-- Witness for C2: a parsed two-row polygon collection (one ring and two
rings) decomposes and re-parses to itself. -/
theorem polygons_roundtrip_witness :
    (PolygonsModel.parse (PolyInput.table polyW) = .ok polyW ∧
      polyW.geometry.all Geom.isPolygon = true) ∧
    (∃ trip : GeomType × List (ℤ × ℤ) × List (List Nat),
      toRaggedArray polyW.geometry = some trip ∧
      ∃ t' : PolyFrame ℤ,
        PolygonsModel.parse (.ragged trip.2.1 trip.2.2 trip.1) = .ok t' ∧
        t'.geometry = polyW.geometry) :=
  ⟨⟨rfl, rfl⟩,
    polygons_roundtrip (PolyInput.table polyW) polyW rfl (Or.inl rfl)⟩

/-- C3: re-parsing any parse result of `PolygonsModel.parse` is an
idempotent pass-through: it never raises and returns the collection
unchanged. -/
theorem polygons_parse_idempotent {α : Type} (inp : PolyInput α) (t : PolyFrame α)
    (hp : PolygonsModel.parse inp = .ok t) :
    PolygonsModel.parse (.table t) = .ok t := by
  have hval : (t.geometry.all fun g => g.isPolygon || g.isMultipolygon) = true := by
    cases inp with
    | ragged data offsets gt =>
        simp only [PolygonsModel.parse, PolygonsModel.parseRagged] at hp
        cases gt with
        | point => exact absurd hp (by simp)
        | linestring => exact absurd hp (by simp)
        | polygon =>
            match offsets, hp with
            | [ringOffs, polyOffs], hp =>
                injection hp with hp'
                rw [← hp']
                simp [List.all_eq_true, Geom.isPolygon]
        | multipolygon =>
            match offsets, hp with
            | [ringOffs, polyOffs, partOffs], hp =>
                injection hp with hp'
                rw [← hp']
                simp [List.all_eq_true, Geom.isMultipolygon]
    | table t' =>
        simp only [PolygonsModel.parse] at hp
        split at hp
        · injection hp with hp'
          rw [← hp']
          assumption
        · exact absurd hp (by simp)
  simp only [PolygonsModel.parse]
  rw [if_pos hval]

/-- Witness for C3: a parsed one-polygon ragged triple re-parses to
itself. -/
theorem polygons_parse_idempotent_witness :
    PolygonsModel.parse
        (PolyInput.ragged [(0, 0), (4, 0), (0, 4)] [[0, 3], [0, 1]] .polygon) =
      .ok polyT ∧
    PolygonsModel.parse (.table polyT) = .ok polyT :=
  ⟨rfl, polygons_parse_idempotent
    (PolyInput.ragged [(0, 0), (4, 0), (0, 4)] [[0, 3], [0, 1]] .polygon) polyT rfl⟩

/-! ## Shapes claims C6 and C10 -/

/-- C6: `ShapesModel.parse` coerces scalar and array sizes to floating
point and raises `InvalidSizeError` whenever any size value is negative or
NaN; a successful scalar parse puts exactly that scalar in every row's size
column, and a successful length-N array parse uses the array element-wise. -/
theorem shapes_parse_size_spec (coords : List (ℚ × ℚ)) (st : Option ShapeType) :
    (∀ v : FVal, v.invalid = true →
        ShapesModel.parse coords st (some (.scalar v)) = .error .invalidSize) ∧
    (∀ v : FVal, v.invalid = false →
        ∃ t : ShapesTable, ShapesModel.parse coords st (some (.scalar v)) = .ok t ∧
          t.sizeCol = List.replicate coords.length v ∧
          (∀ x ∈ t.sizeCol, x = v) ∧ t.sizeDtype = .float64) ∧
    (∀ vs : List FVal, vs.length = coords.length →
        (∃ v ∈ vs, FVal.invalid v = true) →
        ShapesModel.parse coords st (some (.array vs)) = .error .invalidSize) ∧
    (∀ vs : List FVal, vs.length = coords.length →
        (∀ v ∈ vs, FVal.invalid v = false) →
        ∃ t : ShapesTable, ShapesModel.parse coords st (some (.array vs)) = .ok t ∧
          t.sizeCol = vs ∧ t.sizeDtype = .float64) := by
  refine ⟨?_, ?_, ?_, ?_⟩
  · intro v hv
    simp only [ShapesModel.parse]
    rw [if_pos hv]
  · intro v hv
    refine ⟨{ coords := coords
              sizeCol := List.replicate coords.length v
              sizeDtype := .float64
              attrs := [("type", ShapesModel.typeAttr st)]
              transform := .identity }, ?_, rfl, ?_, rfl⟩
    · simp only [ShapesModel.parse]
      rw [if_neg (by rw [hv]; exact Bool.false_ne_true)]
    · intro x hx
      exact List.eq_of_mem_replicate hx
  · intro vs hlen hbad
    have hany : vs.any FVal.invalid = true := List.any_eq_true.mpr hbad
    simp only [ShapesModel.parse]
    rw [if_neg (by rw [hlen]; exact fun hne => hne rfl), if_pos hany]
  · intro vs hlen hgood
    have hany : vs.any FVal.invalid = false := by
      rw [← Bool.not_eq_true, List.any_eq_true]
      rintro ⟨v, hv, hvi⟩
      rw [hgood v hv] at hvi
      exact Bool.false_ne_true hvi
    refine ⟨{ coords := coords
              sizeCol := vs
              sizeDtype := .float64
              attrs := [("type", ShapesModel.typeAttr st)]
              transform := .identity }, ?_, rfl, rfl⟩
    simp only [ShapesModel.parse]
    rw [if_neg (by rw [hlen]; exact fun hne => hne rfl),
      if_neg (by rw [hany]; exact Bool.false_ne_true)]

/-- Witness for C6: a negative scalar size is rejected and the scalar size
3/10 is broadcast to both rows. -/
theorem shapes_parse_size_spec_witness :
    (FVal.invalid (.num (-1)) = true ∧
      ShapesModel.parse shapesCoordsW none (some (.scalar (.num (-1)))) =
        .error .invalidSize) ∧
    (FVal.invalid (.num (3 / 10)) = false ∧
      ∃ t : ShapesTable,
        ShapesModel.parse shapesCoordsW none (some (.scalar (.num (3 / 10)))) = .ok t ∧
        t.sizeCol = List.replicate shapesCoordsW.length (.num (3 / 10)) ∧
        (∀ x ∈ t.sizeCol, x = FVal.num (3 / 10)) ∧ t.sizeDtype = .float64) :=
  ⟨⟨by decide, (shapes_parse_size_spec shapesCoordsW none).1 _ (by decide)⟩,
    ⟨by norm_num [FVal.invalid],
      (shapes_parse_size_spec shapesCoordsW none).2.1 _ (by norm_num [FVal.invalid])⟩⟩

/-- C10: every successful `ShapesModel.parse` records a shape-type entry in
the table-level attribute block whose value equals the passed `shape_type`;
in particular the entry is present with the null value when `shape_type`
was omitted, rather than being absent. -/
theorem shapes_parse_type_recorded (coords : List (ℚ × ℚ)) (st : Option ShapeType)
    (ss : Option SizeArg) (t : ShapesTable)
    (h : ShapesModel.parse coords st ss = .ok t) :
    lookupKey t.attrs "type" = some (ShapesModel.typeAttr st) ∧
    (st = none → lookupKey t.attrs "type" = some .null) ∧
    (∀ ty, st = some ty → lookupKey t.attrs "type" = some (.ofType ty)) := by
  have hattrs : t.attrs = [("type", ShapesModel.typeAttr st)] := by
    cases ss with
    | none =>
        simp only [ShapesModel.parse] at h
        injection h with h'
        rw [← h']
    | some sa =>
        cases sa with
        | scalar v =>
            simp only [ShapesModel.parse] at h
            split at h
            · exact absurd h (by simp)
            · injection h with h'
              rw [← h']
        | array vs =>
            simp only [ShapesModel.parse] at h
            split at h
            · exact absurd h (by simp)
            · split at h
              · exact absurd h (by simp)
              · injection h with h'
                rw [← h']
  refine ⟨?_, ?_, ?_⟩
  · rw [hattrs]
    rfl
  · intro hst
    rw [hattrs, hst]
    rfl
  · intro ty hst
    rw [hattrs, hst]
    rfl

/-- Witness for C10: parsing with `shape_type` omitted records the null
shape-type entry. -/
theorem shapes_parse_type_recorded_witness :
    ShapesModel.parse shapesCoordsW none none = .ok shapesT0 ∧
    lookupKey shapesT0.attrs "type" = some .null :=
  ⟨rfl, (shapes_parse_type_recorded shapesCoordsW none none shapesT0 rfl).2.1 rfl⟩

/-! ## Table lemmas and claims C4, C5 -/

theorem lookupKey_map_set {σ : Type} (cols : List (String × Column σ))
    (k : String) (c : Column σ) (hmem : k ∈ cols.map Prod.fst) :
    lookupKey (cols.map fun p => if p.1 = k then (k, c) else p) k = some c := by
  induction cols with
  | nil => simp at hmem
  | cons p ps ih =>
      by_cases hp : p.1 = k
      · rw [List.map_cons, if_pos hp]
        simp [lookupKey]
      · simp only [List.map_cons, List.mem_cons] at hmem
        have hmem' : k ∈ ps.map Prod.fst := by
          rcases hmem with h | h
          · exact absurd h.symm hp
          · exact h
        simp only [List.map_cons, if_neg hp]
        rcases p with ⟨k', v⟩
        simp only [lookupKey, if_neg hp]
        exact ih hmem'

theorem lookupKey_append_last {σ : Type} (cols : List (String × Column σ))
    (k : String) (c : Column σ) (hmem : k ∉ cols.map Prod.fst) :
    lookupKey (cols ++ [(k, c)]) k = some c := by
  induction cols with
  | nil => simp [lookupKey]
  | cons p ps ih =>
      simp only [List.map_cons, List.mem_cons] at hmem
      push_neg at hmem
      rcases p with ⟨k', v⟩
      simp only [List.cons_append, lookupKey]
      rw [if_neg fun h => hmem.1 h.symm]
      exact ih hmem.2

theorem lookupKey_setCol {σ : Type} (cols : List (String × Column σ))
    (k : String) (c : Column σ) :
    lookupKey (TableModel.setCol cols k c) k = some c := by
  unfold TableModel.setCol
  by_cases hmem : k ∈ cols.map Prod.fst
  · rw [if_pos hmem]
    exact lookupKey_map_set cols k c hmem
  · rw [if_neg hmem]
    exact lookupKey_append_last cols k c hmem

/-- C4: for every annotation matrix and every matching-length region array
with at least two distinct labels, `TableModel.parse` with a `region_key`
name produces a table whose `region_key` obs column is categorical with
category list the sorted distinct input labels, and whose attribute block
records the provided `region_key` name. -/
theorem table_parse_region_array {σ : Type} [LinearOrder σ] (adata : AnnData σ)
    (ls : List σ) (rk ik : String)
    (hik : ik ∈ adata.obsCols.map Prod.fst) (hlen : ls.length = adata.n)
    (hdist : ∃ a ∈ ls, ∃ b ∈ ls, a ≠ b) :
    ∃ t : ParsedTable σ, TableModel.parse adata (.arr ls) (some rk) ik = .ok t ∧
      lookupKey t.obsCols rk = some (.cat (TableModel.sortedCats ls) ls) ∧
      (TableModel.sortedCats ls).toFinset = ls.toFinset ∧
      List.Sorted (· ≤ ·) (TableModel.sortedCats ls) ∧
      (TableModel.sortedCats ls).Nodup ∧
      lookupKey t.attrs "region_key" = some (.str rk) := by
  refine ⟨⟨adata.n,
    TableModel.setCol adata.obsCols rk (.cat (TableModel.sortedCats ls) ls),
    [("region", .labels ls), ("region_key", .str rk), ("instance_key", .str ik)]⟩,
    ?_, ?_, ?_, ?_, ?_, ?_⟩
  · simp only [TableModel.parse]
    rw [if_pos hik, if_pos hlen]
  · exact lookupKey_setCol adata.obsCols rk (.cat (TableModel.sortedCats ls) ls)
  · ext a
    simp [TableModel.sortedCats, List.mem_toFinset, List.mem_insertionSort,
      List.mem_dedup]
  · exact List.sorted_insertionSort (· ≤ ·) ls.dedup
  · exact (List.perm_insertionSort (· ≤ ·) ls.dedup).nodup_iff.mpr (List.nodup_dedup ls)
  · rfl

/-- Witness for C4: a three-row matrix annotated by the region array
[2, 1, 2] gains the categorical column "reg" with categories [1, 2]. -/
theorem table_parse_region_array_witness :
    ("A" ∈ adW.obsCols.map Prod.fst ∧ ([2, 1, 2] : List ℕ).length = adW.n ∧
      (∃ a ∈ ([2, 1, 2] : List ℕ), ∃ b ∈ ([2, 1, 2] : List ℕ), a ≠ b)) ∧
    (∃ t : ParsedTable ℕ, TableModel.parse adW (.arr [2, 1, 2]) (some "reg") "A" = .ok t ∧
      lookupKey t.obsCols "reg" = some (.cat (TableModel.sortedCats [2, 1, 2]) [2, 1, 2]) ∧
      (TableModel.sortedCats [2, 1, 2]).toFinset = ([2, 1, 2] : List ℕ).toFinset ∧
      List.Sorted (· ≤ ·) (TableModel.sortedCats [2, 1, 2]) ∧
      (TableModel.sortedCats [2, 1, 2]).Nodup ∧
      lookupKey t.attrs "region_key" = some (.str "reg")) :=
  ⟨⟨by decide, by decide, by decide⟩,
    table_parse_region_array adW [2, 1, 2] "reg" "A" (by decide) (by decide) (by decide)⟩

/-- C5 counterexample: parsing `adC5` with the single string region
"sample" yields a table whose attribute block does contain a region-key
entry (holding the null value), contradicting the claim that no region-key
entry is present. -/
theorem table_string_region_key_present_cex :
    TableModel.parse adC5 (RegionArg.single "sample") none "A" = .ok tblC5 ∧
    lookupKey tblC5.attrs "region_key" = some .null := by
  constructor
  · rfl
  · rfl

/-- C5 (amended): for every annotation matrix whose obs columns contain the
instance key, `TableModel.parse` with region given as a single string
produces a table whose attribute block records a region-key entry holding
the null value (rather than omitting the entry), whose region entry equals
that string, and to which no per-row region column is added (the obs
columns are returned unchanged). -/
theorem table_parse_region_string {σ : Type} [LinearOrder σ] (adata : AnnData σ)
    (s ik : String) (hik : ik ∈ adata.obsCols.map Prod.fst) :
    ∃ t : ParsedTable σ, TableModel.parse adata (.single s) none ik = .ok t ∧
      t.obsCols = adata.obsCols ∧
      lookupKey t.attrs "region" = some (.str s) ∧
      lookupKey t.attrs "region_key" = some .null ∧
      lookupKey t.attrs "instance_key" = some (.str ik) := by
  refine ⟨⟨adata.n, adata.obsCols,
    [("region", .str s), ("region_key", .null), ("instance_key", .str ik)]⟩,
    ?_, rfl, rfl, rfl, rfl⟩
  simp only [TableModel.parse]
  rw [if_pos hik]

/-- Witness for C5 (amended claim) at the concrete matrix `adC5`. -/
theorem table_parse_region_string_witness :
    ("A" ∈ adC5.obsCols.map Prod.fst) ∧
    (∃ t : ParsedTable ℕ, TableModel.parse adC5 (.single "sample") none "A" = .ok t ∧
      t.obsCols = adC5.obsCols ∧
      lookupKey t.attrs "region" = some (.str "sample") ∧
      lookupKey t.attrs "region_key" = some .null ∧
      lookupKey t.attrs "instance_key" = some (.str "A")) :=
  ⟨by decide, table_parse_region_string adC5 "sample" "A" (by decide)⟩

/-! ## Points lemmas and claim C7 -/

theorem points_parse_ok {inp : PointsInput} {ik fk : Option String}
    {axs : List String} {rik rfk : Option String}
    (hax : PointsModel.checkCoords inp = .ok axs)
    (hik : PointsModel.resolveKey (PointsModel.srcCols inp) ik = .ok rik)
    (hfk : PointsModel.resolveKey (PointsModel.srcCols inp) fk = .ok rfk) :
    PointsModel.parse inp ik fk =
      .ok ⟨axs, PointsModel.keptCols inp,
        PointsModel.keyEntry "feature_key" rfk ++ PointsModel.keyEntry "instance_key" rik,
        .identity⟩ := by
  unfold PointsModel.parse
  rw [hax, hik, hfk]

theorem points_parse_err_ik {inp : PointsInput} {ik fk : Option String}
    {axs : List String} {e : ModelError}
    (hax : PointsModel.checkCoords inp = .ok axs)
    (hik : PointsModel.resolveKey (PointsModel.srcCols inp) ik = .error e) :
    PointsModel.parse inp ik fk = .error e := by
  unfold PointsModel.parse
  rw [hax, hik]

theorem points_parse_err_fk {inp : PointsInput} {ik fk : Option String}
    {axs : List String} {rik : Option String} {e : ModelError}
    (hax : PointsModel.checkCoords inp = .ok axs)
    (hik : PointsModel.resolveKey (PointsModel.srcCols inp) ik = .ok rik)
    (hfk : PointsModel.resolveKey (PointsModel.srcCols inp) fk = .error e) :
    PointsModel.parse inp ik fk = .error e := by
  unfold PointsModel.parse
  rw [hax, hik, hfk]

theorem resolveKey_mem {cs : List String} {nm : String}
    (cols : Option (List String)) (hcols : cols = some cs) (hmem : nm ∈ cs) :
    PointsModel.resolveKey cols (some nm) = .ok (some nm) := by
  rw [hcols]
  show (if nm ∈ cs then (Except.ok (some nm) : Except ModelError (Option String))
    else .error .missingColumn) = .ok (some nm)
  rw [if_pos hmem]

theorem resolveKey_missing {cs : List String} {nm : String}
    (cols : Option (List String)) (hcols : cols = some cs) (hmem : nm ∉ cs) :
    PointsModel.resolveKey cols (some nm) = .error .missingColumn := by
  rw [hcols]
  show (if nm ∈ cs then (Except.ok (some nm) : Except ModelError (Option String))
    else .error .missingColumn) = .error .missingColumn
  rw [if_neg hmem]

theorem resolveKey_error_eq {cols : Option (List String)} {k : Option String}
    {e : ModelError} (h : PointsModel.resolveKey cols k = .error e) :
    e = .missingColumn := by
  cases k with
  | none => exact absurd h (by simp [PointsModel.resolveKey])
  | some nm =>
      cases cols with
      | none => exact absurd h (by simp [PointsModel.resolveKey])
      | some cs =>
          have h' : (if nm ∈ cs then (Except.ok (some nm) : Except ModelError (Option String))
              else .error .missingColumn) = .error e := h
          by_cases hmem : nm ∈ cs
          · rw [if_pos hmem] at h'
            exact absurd h' (by simp)
          · rw [if_neg hmem] at h'
            injection h' with h''
            exact h''.symm

/-- C7: whenever the requested `instance_key` names a column present in the
column source, the parsed result's `spatialdata_attrs` contain that name
under the `instance_key` entry; when `instance_key` is omitted, the result
has no `instance_key` entry at all; and when the requested column is absent
from an existing column source, parse raises `MissingColumnError`.  The
same holds for `feature_key`. -/
theorem points_key_registration (inp : PointsInput) (ik fk : Option String)
    (hc : ∃ a, PointsModel.checkCoords inp = .ok a) :
    ((∀ nm cs, ik = some nm → PointsModel.srcCols inp = some cs → nm ∈ cs →
        ∀ r, PointsModel.resolveKey (PointsModel.srcCols inp) fk = .ok r →
          ∃ p : PointsFrame, PointsModel.parse inp ik fk = .ok p ∧
            ("instance_key", nm) ∈ p.sdAttrs) ∧
      (ik = none →
        ∀ r, PointsModel.resolveKey (PointsModel.srcCols inp) fk = .ok r →
          ∃ p : PointsFrame, PointsModel.parse inp ik fk = .ok p ∧
            ∀ v, ("instance_key", v) ∉ p.sdAttrs) ∧
      (∀ nm cs, ik = some nm → PointsModel.srcCols inp = some cs → nm ∉ cs →
        PointsModel.parse inp ik fk = .error .missingColumn)) ∧
    ((∀ nm cs, fk = some nm → PointsModel.srcCols inp = some cs → nm ∈ cs →
        ∀ r, PointsModel.resolveKey (PointsModel.srcCols inp) ik = .ok r →
          ∃ p : PointsFrame, PointsModel.parse inp ik fk = .ok p ∧
            ("feature_key", nm) ∈ p.sdAttrs) ∧
      (fk = none →
        ∀ r, PointsModel.resolveKey (PointsModel.srcCols inp) ik = .ok r →
          ∃ p : PointsFrame, PointsModel.parse inp ik fk = .ok p ∧
            ∀ v, ("feature_key", v) ∉ p.sdAttrs) ∧
      (∀ nm cs, fk = some nm → PointsModel.srcCols inp = some cs → nm ∉ cs →
        PointsModel.parse inp ik fk = .error .missingColumn)) := by
  obtain ⟨axs, hax⟩ := hc
  refine ⟨⟨?_, ?_, ?_⟩, ⟨?_, ?_, ?_⟩⟩
  · rintro nm cs rfl hcols hmem r hr
    refine ⟨_, points_parse_ok hax (resolveKey_mem _ hcols hmem) hr, ?_⟩
    simp [PointsModel.keyEntry]
  · rintro rfl r hr
    refine ⟨_, points_parse_ok hax rfl hr, ?_⟩
    intro v
    cases r with
    | none => simp [PointsModel.keyEntry]
    | some nm => simp [PointsModel.keyEntry]
  · rintro nm cs rfl hcols hmem
    exact points_parse_err_ik hax (resolveKey_missing _ hcols hmem)
  · rintro nm cs rfl hcols hmem r hr
    refine ⟨_, points_parse_ok hax hr (resolveKey_mem _ hcols hmem), ?_⟩
    simp [PointsModel.keyEntry]
  · rintro rfl r hr
    refine ⟨_, points_parse_ok hax hr rfl, ?_⟩
    intro v
    cases r with
    | none => simp [PointsModel.keyEntry]
    | some nm => simp [PointsModel.keyEntry]
  · rintro nm cs rfl hcols hmem
    cases hres : PointsModel.resolveKey (PointsModel.srcCols inp) ik with
    | ok rik => exact points_parse_err_fk hax hres (resolveKey_missing _ hcols hmem)
    | error e =>
        rw [resolveKey_error_eq hres] at hres
        exact points_parse_err_ik hax hres

/-- Witness for C7: an eager-dataframe input whose source contains the
column "cell_id"; requesting it as `instance_key` registers it in
`spatialdata_attrs`. -/
theorem points_key_registration_witness :
    (∃ a, PointsModel.checkCoords pointsInW = .ok a) ∧
    (∃ p : PointsFrame, PointsModel.parse pointsInW (some "cell_id") none = .ok p ∧
      ("instance_key", "cell_id") ∈ p.sdAttrs) :=
  ⟨⟨["x", "y"], rfl⟩,
    (points_key_registration pointsInW (some "cell_id") none ⟨["x", "y"], rfl⟩).1.1
      "cell_id" (colNames dfW) rfl rfl (by decide) none rfl⟩

/-! ## Graph-builder lemmas and claims C8, C9 -/

theorem keyLE_total (a b : ℚ × Nat) : keyLE a b ∨ keyLE b a := by
  unfold keyLE
  rcases lt_trichotomy a.1 b.1 with h | h | h
  · exact Or.inl (Or.inl h)
  · rcases Nat.le_total a.2 b.2 with h2 | h2
    · exact Or.inl (Or.inr ⟨h, h2⟩)
    · exact Or.inr (Or.inr ⟨h.symm, h2⟩)
  · exact Or.inr (Or.inl h)

theorem keyLE_trans (a b c : ℚ × Nat) (h1 : keyLE a b) (h2 : keyLE b c) :
    keyLE a c := by
  unfold keyLE at h1 h2 ⊢
  rcases h1 with h1 | ⟨h1e, h1n⟩
  · rcases h2 with h2 | ⟨h2e, h2n⟩
    · exact Or.inl (h1.trans h2)
    · exact Or.inl (h2e ▸ h1)
  · rcases h2 with h2 | ⟨h2e, h2n⟩
    · exact Or.inl (h1e ▸ h2)
    · exact Or.inr ⟨h1e.trans h2e, h1n.trans h2n⟩

/-- C8: for every geometry collection and every parameter set, `build_graph`
with a method string outside {"knn", "radius", "expansion"} fails with the
configuration error, regardless of what other parameters were supplied. -/
theorem build_graph_unknown_method (gdf : List (ℚ × ℚ)) (method : String)
    (params : GraphParams)
    (h : method ≠ "knn" ∧ method ≠ "radius" ∧ method ≠ "expansion") :
    build_graph gdf method params = .error .configuration := by
  unfold build_graph
  rw [if_neg h.1, if_neg h.2.1, if_neg h.2.2]

/-- Witness for C8: the method string "invalid" is rejected even with a
valid knn parameter supplied. -/
theorem build_graph_unknown_method_witness :
    ("invalid" ≠ "knn" ∧ "invalid" ≠ "radius" ∧ "invalid" ≠ "expansion") ∧
    build_graph ptsW "invalid" ⟨some 2, none, none⟩ = .error .configuration :=
  ⟨by decide, build_graph_unknown_method ptsW "invalid" ⟨some 2, none, none⟩ (by decide)⟩

/-- C9: on every collection of at least 3 pairwise distinct points,
`build_graph` with method "knn" and k = 2 is built from the directed
neighbor relation `knnNeighbors`, which, before symmetrization, gives every
instance exactly 2 outgoing neighbors, no self-loops, only in-range
neighbors, and neighbors minimal in the (squared distance, index)
lexicographic order — the 2 nearest by Euclidean distance with ties broken
by ascending instance index. -/
theorem knn_two_neighbors (pts : List (ℚ × ℚ)) (h3 : 3 ≤ pts.length)
    (hdist : pts.Pairwise (· ≠ ·)) (params : GraphParams)
    (hk : params.k = some 2) :
    build_graph pts "knn" params = .ok (symmetrize (knnEdges pts 2)) ∧
    ∀ i, i < pts.length →
      (knnNeighbors pts 2 i).length = 2 ∧
      i ∉ knnNeighbors pts 2 i ∧
      (∀ a ∈ knnNeighbors pts 2 i, a < pts.length) ∧
      (∀ a ∈ knnNeighbors pts 2 i, ∀ b, b < pts.length → b ≠ i →
        b ∉ knnNeighbors pts 2 i → keyLE (knnKey pts i a) (knnKey pts i b)) := by
  constructor
  · unfold build_graph
    rw [if_pos rfl, hk]
    show (if 1 ≤ 2 then (Except.ok (symmetrize (knnEdges pts 2)) :
        Except ModelError (List (Nat × Nat)))
      else .error .configuration) = .ok (symmetrize (knnEdges pts 2))
    rw [if_pos (by omega)]
  · intro i hi
    set cand := (List.range pts.length).erase i with hcand
    set rel := fun a b : Nat => keyLE (knnKey pts i a) (knnKey pts i b) with hrel
    set sorted := List.insertionSort rel cand with hsortdef
    have hperm : List.Perm sorted cand := List.perm_insertionSort rel cand
    have hcandlen : cand.length = pts.length - 1 := by
      rw [hcand, List.length_erase_of_mem (List.mem_range.mpr hi), List.length_range]
    have hsortlen : sorted.length = pts.length - 1 := by
      rw [hperm.length_eq, hcandlen]
    have hnbrs : knnNeighbors pts 2 i = sorted.take 2 := rfl
    have hmemcand : ∀ a ∈ cand, a ≠ i ∧ a < pts.length := by
      intro a ha
      rw [hcand] at ha
      have h' := ((List.nodup_range pts.length).mem_erase_iff).mp ha
      exact ⟨h'.1, List.mem_range.mp h'.2⟩
    have hmemsorted : ∀ a ∈ sorted, a ≠ i ∧ a < pts.length :=
      fun a ha => hmemcand a (hperm.mem_iff.mp ha)
    refine ⟨?_, ?_, ?_, ?_⟩
    · rw [hnbrs, List.length_take, hsortlen]
      omega
    · intro hmem
      rw [hnbrs] at hmem
      exact (hmemsorted i (List.mem_of_mem_take hmem)).1 rfl
    · intro a ha
      rw [hnbrs] at ha
      exact (hmemsorted a (List.mem_of_mem_take ha)).2
    · intro a ha b hb hbne hbnot
      have hbsorted : b ∈ sorted := hperm.mem_iff.mpr
        (((List.nodup_range pts.length).mem_erase_iff).mpr
          ⟨hbne, List.mem_range.mpr hb⟩)
      have hbsplit : b ∈ sorted.take 2 ++ sorted.drop 2 := by
        rw [List.take_append_drop]
        exact hbsorted
      have hbdrop : b ∈ sorted.drop 2 := by
        rcases List.mem_append.mp hbsplit with hcase | hcase
        · rw [hnbrs] at hbnot
          exact absurd hcase hbnot
        · exact hcase
      have hsortedPW : List.Pairwise rel sorted := by
        haveI ht : IsTotal ℕ rel := ⟨fun x y => keyLE_total _ _⟩
        haveI htr : IsTrans ℕ rel := ⟨fun x y z => keyLE_trans _ _ _⟩
        exact List.sorted_insertionSort rel cand
      have hPW2 : List.Pairwise rel (sorted.take 2 ++ sorted.drop 2) := by
        rw [List.take_append_drop]
        exact hsortedPW
      have hrab := (List.pairwise_append.mp hPW2).2.2 a (by rw [hnbrs] at ha; exact ha)
        b hbdrop
      exact hrab

/-- Witness for C9: three collinear distinct points; instance 0 has exactly
the two outgoing neighbors required. -/
theorem knn_two_neighbors_witness :
    (3 ≤ ptsW.length ∧ ptsW.Pairwise (· ≠ ·)) ∧
    build_graph ptsW "knn" ⟨some 2, none, none⟩ = .ok (symmetrize (knnEdges ptsW 2)) ∧
    (knnNeighbors ptsW 2 0).length = 2 ∧
    0 ∉ knnNeighbors ptsW 2 0 := by
  have h := knn_two_neighbors ptsW (by decide) (by decide) ⟨some 2, none, none⟩ rfl
  exact ⟨⟨by decide, by decide⟩, h.1, (h.2 0 (by decide)).1, (h.2 0 (by decide)).2.1⟩

end SpatialData
